import Mathlib

/-
Verification development for the ai-predict server (src/server/index.js).

The definitions below are a shallow embedding of the server's logic:
pure JavaScript string operations are translated to Lean functions over
String/List Char; the module-level nonce state is modelled by explicit
state passing of an `Option Nat` (null = uninitialized); external
services (retrieval, language model, chain RPC) are inputs to the
embedded functions, so theorems quantify over all of their behaviours.
-/

set_option autoImplicit false

namespace AiPredict

/-! ## JavaScript string primitives -/

/-- Whitespace characters removed by JavaScript String.prototype.trim
(restricted to the ASCII range; all inputs considered here are ASCII). -/
def jsIsWs (c : Char) : Bool :=
  c = ' ' ∨ c = '\t' ∨ c = '\n' ∨ c = '\r' ∨ c = '\x0b' ∨ c = '\x0c'

/-- JavaScript `s.trim()`: drop leading and trailing whitespace. -/
def jsTrim (s : String) : String :=
  ⟨((s.data.dropWhile jsIsWs).reverse.dropWhile jsIsWs).reverse⟩

/-- Does the character list start with the given pattern? -/
def charsStartWith : List Char → List Char → Bool
  | [], _ => true
  | _ :: _, [] => false
  | p :: ps, c :: cs => p = c && charsStartWith ps cs

/-- Does the character list contain the pattern as a contiguous run? -/
def charsContain (pat : List Char) : List Char → Bool
  | [] => charsStartWith pat []
  | c :: cs => charsStartWith pat (c :: cs) || charsContain pat cs

/-- JavaScript `s.includes(pat)`. -/
def strIncludes (s pat : String) : Bool :=
  charsContain pat.data s.data

/-- Value of a decimal digit character, if it is one. -/
def decDigitVal (c : Char) : Option Nat :=
  if '0' ≤ c ∧ c ≤ '9' then some (c.toNat - '0'.toNat) else none

/-- Value of a hexadecimal digit character, if it is one. -/
def hexDigitVal (c : Char) : Option Nat :=
  if '0' ≤ c ∧ c ≤ '9' then some (c.toNat - '0'.toNat)
  else if 'a' ≤ c ∧ c ≤ 'f' then some (10 + c.toNat - 'a'.toNat)
  else if 'A' ≤ c ∧ c ≤ 'F' then some (10 + c.toNat - 'A'.toNat)
  else none

/-- Accumulate digit values in the given base. -/
def digitsVal (base : Nat) (ds : List Nat) : Nat :=
  ds.foldl (fun a d => a * base + d) 0

/-- JavaScript `parseInt(s)` with no radix argument: skip leading
whitespace, read an optional sign, detect a `0x`/`0X` hex prefix, then
take the longest prefix of digits of the detected radix; `none` models
`NaN` (no valid digits). Trailing garbage after the digits is ignored,
exactly as in JavaScript. -/
def jsParseInt (s : String) : Option Int :=
  let cs := s.data.dropWhile jsIsWs
  let signAndRest : Int × List Char :=
    match cs with
    | '-' :: r => (-1, r)
    | '+' :: r => (1, r)
    | _ => (1, cs)
  let sgn := signAndRest.1
  let body := signAndRest.2
  match body with
  | '0' :: x :: r =>
    if x = 'x' ∨ x = 'X' then
      let ds := (r.takeWhile (fun c => (hexDigitVal c).isSome)).filterMap hexDigitVal
      if ds.isEmpty then none else some (sgn * (digitsVal 16 ds : Nat))
    else
      let ds := (body.takeWhile (fun c => (decDigitVal c).isSome)).filterMap decDigitVal
      if ds.isEmpty then none else some (sgn * (digitsVal 10 ds : Nat))
  | _ =>
    let ds := (body.takeWhile (fun c => (decDigitVal c).isSome)).filterMap decDigitVal
    if ds.isEmpty then none else some (sgn * (digitsVal 10 ds : Nat))

/-- Split a character list at newline characters (single-character
separator, so JavaScript `split('\n')` semantics are exact: the result
is never empty, and empty segments are kept). -/
def splitCharsNl : List Char → List (List Char)
  | [] => [[]]
  | c :: cs =>
    let r := splitCharsNl cs
    if c = '\n' then [] :: r
    else
      match r with
      | [] => [[c]]
      | h :: t => (c :: h) :: t

/-- JavaScript `s.split('\n')`. -/
def jsSplitNl (s : String) : List String :=
  (splitCharsNl s.data).map (fun l => ⟨l⟩)

/-- The last element of `s.split('\n')` (JavaScript split never returns
an empty array, so the default is never taken). -/
def lastLine (s : String) : String :=
  (jsSplitNl s).getLastD ""

/-! ## Outcome Adjudicator (determineOutcome, index.js lines 220-264)

The model's response text is the input; the function mirrors
  const fullResponse = response.choices[0].message.content.trim();
  const lines = fullResponse.split('\n');
  const outcome = parseInt(lines[lines.length - 1]);
  if (isNaN(outcome) || (outcome !== 0 && outcome !== 1)) throw ...;
  return outcome;
with the catch-block wrapping of the thrown message. -/

/-- Adjudication of a model response: Except.error is a thrown
`AdjudicationError` (message as wrapped by the catch block). -/
def determineOutcome (content : String) : Except String Int :=
  let fullResponse := jsTrim content
  let outcome? := jsParseInt (lastLine fullResponse)
  match outcome? with
  | none => Except.error "Failed to determine outcome: Invalid outcome determined by AI"
  | some outcome =>
    if outcome ≠ 0 ∧ outcome ≠ 1 then
      Except.error "Failed to determine outcome: Invalid outcome determined by AI"
    else
      Except.ok outcome

example : determineOutcome "reasoning here\n1" = Except.ok 1 := by rfl
example : determineOutcome "reasoning here\n0 (the prediction is false)" = Except.ok 0 := by
  rfl
example : determineOutcome "no verdict at all" =
    Except.error "Failed to determine outcome: Invalid outcome determined by AI" := by rfl
example : determineOutcome "stuff\n2" =
    Except.error "Failed to determine outcome: Invalid outcome determined by AI" := by rfl
example : determineOutcome "stuff\n1\n" = Except.ok 1 := by rfl
example : jsParseInt "0x1" = some 1 := by decide
example : jsParseInt "-0" = some 0 := by decide
example : jsParseInt "  12abc" = some 12 := by decide
example : jsParseInt "" = none := by decide

/-! ## JSON values and object semantics

Model of the JavaScript values flowing through the server: the parsed
model output (JSON.parse result), request bodies, and the objects built
by spread syntax. Objects are association lists where a later entry for
the same key overrides an earlier one (exactly the semantics of an
object literal with repeated keys, which is what spreads produce). -/

inductive JsValue where
  | nullV : JsValue
  | boolV : Bool → JsValue
  | numV : Int → JsValue
  | strV : String → JsValue
  | arrV : List JsValue → JsValue
  | objV : List (String × JsValue) → JsValue

/-- Property lookup on an object field list with later-entry-wins
semantics: search the tail first, fall back to the head. -/
def objGet : List (String × JsValue) → String → Option JsValue
  | [], _ => none
  | (k, v) :: rest, key =>
    match objGet rest key with
    | some r => some r
    | none => if k = key then some v else none

/-- Property lookup on an arbitrary value; non-objects carry no fields
here (array/string index properties are irrelevant to the server). -/
def objGetV (v : JsValue) (key : String) : Option JsValue :=
  match v with
  | JsValue.objV fs => objGet fs key
  | _ => none

/-- Number the elements of a list as string-keyed fields, as array
spread into an object literal does. -/
def enumFields (i : Nat) : List JsValue → List (String × JsValue)
  | [] => []
  | x :: r => (Nat.repr i, x) :: enumFields (i + 1) r

/-- The own enumerable properties contributed by `{...v}`: an object
spreads its fields, an array its indexed elements, a string its indexed
characters, and primitives nothing. -/
def spreadOwnProps : JsValue → List (String × JsValue)
  | JsValue.objV fs => fs
  | JsValue.arrV xs => enumFields 0 xs
  | JsValue.strV s => enumFields 0 (s.data.map (fun c => JsValue.strV ⟨[c]⟩))
  | _ => []

/-- JavaScript truthiness of a value. -/
def jsTruthy : JsValue → Bool
  | JsValue.nullV => false
  | JsValue.boolV b => b
  | JsValue.numV n => decide (n ≠ 0)
  | JsValue.strV s => decide (s ≠ "")
  | JsValue.arrV _ => true
  | JsValue.objV _ => true

/-- Truthiness of a possibly-absent value (`none` models `undefined`). -/
def optTruthy : Option JsValue → Bool
  | none => false
  | some v => jsTruthy v

/-! ## Prediction Generator (generatePredictions, index.js lines 68-116)

  let predictions = JSON.parse(response.choices[0].message.content);
  return predictions.map(prediction => ({
      ...prediction, minVotes: 1, maxVotes: 1000,
      predictionType: 0, optionsCount: 2 }));

The external calls (Perplexity retrieval, OpenAI completion,
JSON.parse) are inputs; the catch block wraps any thrown message. -/

/-- The four fixed market-policy fields appended after the spread, so
they override any model-supplied values of the same name. -/
def policyFields : List (String × JsValue) :=
  [("minVotes", JsValue.numV 1), ("maxVotes", JsValue.numV 1000),
   ("predictionType", JsValue.numV 0), ("optionsCount", JsValue.numV 2)]

/-- `{...prediction, minVotes: 1, maxVotes: 1000, predictionType: 0,
optionsCount: 2}` for one parsed array element. -/
def normalizePrediction (p : JsValue) : JsValue :=
  JsValue.objV (spreadOwnProps p ++ policyFields)

/-- Environment of one generatePredictions call: the outcome of the
retrieval call, of the completion call, and of JSON.parse on the
completion text (`Except.error` carries the thrown message). -/
structure GenEnv where
  retrievalErr : Option String
  completionErr : Option String
  parsed : Except String JsValue

/-- External calls the server performs, in order. -/
inductive Effect where
  | retrieval : Effect
  | generation : Effect
  | chain : Effect
deriving DecidableEq

/-- Message wrapping done by generatePredictions' catch block. -/
def genWrap (m : String) : String :=
  "Failed to generate predictions: " ++ m

/-- Message wrapping done by getPerplexityData's catch block. -/
def perplexityWrap (m : String) : String :=
  "Failed to fetch data from Perplexity: " ++ m

/-- generatePredictions: returns the effects performed and either the
normalized prediction list or the thrown (wrapped) error message.
JSON.parse output that is not an array makes `.map` throw a TypeError,
which the catch block wraps like any other failure. -/
def generatePredictions (e : GenEnv) : List Effect × Except String (List JsValue) :=
  match e.retrievalErr with
  | some m => ([Effect.retrieval], Except.error (genWrap (perplexityWrap m)))
  | none =>
    match e.completionErr with
    | some m => ([Effect.retrieval, Effect.generation], Except.error (genWrap m))
    | none =>
      match e.parsed with
      | Except.error m =>
        ([Effect.retrieval, Effect.generation], Except.error (genWrap m))
      | Except.ok (JsValue.arrV xs) =>
        ([Effect.retrieval, Effect.generation], Except.ok (xs.map normalizePrediction))
      | Except.ok _ =>
        ([Effect.retrieval, Effect.generation],
          Except.error (genWrap "predictions.map is not a function"))

example :
    (generatePredictions ⟨none, none, Except.ok (JsValue.arrV [])⟩).2 =
      Except.ok [] := by rfl

example :
    (generatePredictions
        ⟨none, none,
          Except.ok (JsValue.arrV [JsValue.objV [("minVotes", JsValue.numV 77)]])⟩).2 =
      Except.ok [JsValue.objV ([("minVotes", JsValue.numV 77)] ++ policyFields)] := by rfl

example :
    objGet ([("minVotes", JsValue.numV 77)] ++ policyFields) "minVotes" =
      some (JsValue.numV 1) := by rfl

/-! ## Transaction Sequencer (createPredictionOnContract, index.js lines 118-157)

  if (currentNonce === null) { currentNonce = await wallet.getTransactionCount(); }
  const tx = await contract.createPrediction(..., { nonce: currentNonce });
  currentNonce++;
  const receipt = await tx.wait();
  return tx.hash;
  catch (error) {
    if (error.message.includes("nonce too low")) { currentNonce = null; }
    throw new Error(`Failed to create prediction on contract: ` + error.message);
  }

The module-level `currentNonce` is an explicit `Option Nat` state
(`none` = null/uninitialized). The chain's behaviour at one call is a
`CallEnv`: what getTransactionCount would return, and what the
submission does (accepted with a hash — then the wait either confirms
or throws — or rejected outright with a message). -/

/-- The substring the catch block tests the error message for. -/
def stalePat : String := "nonce too low"

/-- Message wrapping done by createPredictionOnContract's catch block. -/
def seqWrap (m : String) : String :=
  "Failed to create prediction on contract: " ++ m

/-- One submission's fate at the chain: accepted for broadcast (hash
returned; `wait = none` means the confirmation succeeded, `some m` that
`tx.wait()` threw `m`), or rejected at submission with message `m`. -/
inductive SendOutcome where
  | accepted : String → Option String → SendOutcome
  | rejected : String → SendOutcome

/-- Chain behaviour visible to one createPredictionOnContract call. -/
structure CallEnv where
  fetchRes : Except String Nat
  send : SendOutcome

/-- Result of one createPredictionOnContract call: the new value of
`currentNonce`, the nonce attached to the transaction (none when the
submission was never initiated because the nonce fetch threw), and the
returned hash or thrown message. -/
structure StepResult where
  state : Option Nat
  used : Option Nat
  result : Except String String

/-- The catch block's update of `currentNonce`: reset to null exactly
when the message contains "nonce too low". -/
def catchUpdate (sAtCatch : Option Nat) (m : String) : Option Nat :=
  if strIncludes m stalePat then none else sAtCatch

/-- The call from the submission on: `nonce` is the value read from
`currentNonce` and attached to the transaction. On acceptance the
in-memory nonce is incremented before the confirmation wait. -/
def sendPhase (oc : SendOutcome) (nonce : Nat) : StepResult :=
  match oc with
  | SendOutcome.accepted h none => ⟨some (nonce + 1), some nonce, Except.ok h⟩
  | SendOutcome.accepted _ (some m) =>
    ⟨catchUpdate (some (nonce + 1)) m, some nonce, Except.error (seqWrap m)⟩
  | SendOutcome.rejected m =>
    ⟨catchUpdate (some nonce) m, some nonce, Except.error (seqWrap m)⟩

/-- One full createPredictionOnContract call from state `s`. -/
def submitStep (env : CallEnv) (s : Option Nat) : StepResult :=
  match s with
  | some n => sendPhase env.send n
  | none =>
    match env.fetchRes with
    | Except.ok c => sendPhase env.send c
    | Except.error m => ⟨catchUpdate none m, none, Except.error (seqWrap m)⟩

/-- The underlying (unwrapped) error message a call throws, if any. -/
def sendErr : SendOutcome → Option String
  | SendOutcome.accepted _ none => none
  | SendOutcome.accepted _ (some m) => some m
  | SendOutcome.rejected m => some m

/-- The underlying error message of a whole call, if it fails. -/
def underlyingErr (env : CallEnv) (s : Option Nat) : Option String :=
  match s with
  | some _ => sendErr env.send
  | none =>
    match env.fetchRes with
    | Except.ok _ => sendErr env.send
    | Except.error m => some m

/-- A run of sequential submissions: thread the nonce state through the
calls, collecting each call's attached nonce and outcome. -/
def runSeq : List CallEnv → Option Nat → List (Option Nat × Except String String) × Option Nat
  | [], s => ([], s)
  | e :: rest, s =>
    let r := submitStep e s
    let tl := runSeq rest r.state
    ((r.used, r.result) :: tl.1, tl.2)

/-- The creation flow's per-prediction loop (index.js lines 171-182):
each prediction is submitted through createPredictionOnContract, and
its hash or error message is recorded without aborting the loop.
`envOf i` is the chain behaviour seen by the i-th submission. -/
def creationLoop (envOf : Nat → CallEnv) :
    List JsValue → Nat → Option Nat → List (JsValue × Except String String) × Option Nat
  | [], _, s => ([], s)
  | p :: ps, i, s =>
    let r := submitStep (envOf i) s
    let rest := creationLoop envOf ps (i + 1) r.state
    ((p, r.result) :: rest.1, rest.2)

example :
    runSeq [⟨Except.ok 7, SendOutcome.accepted "0xa" none⟩,
            ⟨Except.ok 99, SendOutcome.accepted "0xb" none⟩] none =
      ([(some 7, Except.ok "0xa"), (some 8, Except.ok "0xb")], some 9) := by rfl

example :
    runSeq [⟨Except.ok 7, SendOutcome.rejected "execution reverted"⟩,
            ⟨Except.ok 99, SendOutcome.accepted "0xb" none⟩] none =
      ([(some 7, Except.error (seqWrap "execution reverted")),
        (some 7, Except.ok "0xb")], some 8) := by rfl

example :
    (submitStep ⟨Except.ok 5, SendOutcome.rejected "nonce too low: next is 9"⟩
        (some 5)).state = none := by rfl

/-! ## HTTP endpoints (index.js lines 159-218, 277-294) -/

/-- Response of POST /generate-predictions: HTTP status, the `error`
field if any, and on success the annotated items (each the normalized
prediction paired with its transaction hash or error message). -/
structure GenResponse where
  status : Nat
  errorField : Option String
  items : Option (List (JsValue × Except String String))

/-- POST /generate-predictions. `body` is the parsed JSON request body
(an object field list); the guard is `if (!topic) return 400`, i.e. a
truthiness test on `req.body.topic`. Returns the response, the external
calls performed, and the new nonce state. -/
def postGeneratePredictions (body : List (String × JsValue)) (e : GenEnv)
    (envOf : Nat → CallEnv) (s : Option Nat) :
    GenResponse × List Effect × Option Nat :=
  let topic := objGet body "topic"
  if optTruthy topic then
    match generatePredictions e with
    | (effs, Except.error m) => (⟨500, some m, none⟩, effs, s)
    | (effs, Except.ok preds) =>
      let r := creationLoop envOf preds 0 s
      (⟨200, none, some r.1⟩, effs ++ r.1.map (fun _ => Effect.chain), r.2)
  else
    (⟨400, some "Topic is required", none⟩, [], s)

/-- Response of POST /test/generate-predictions. -/
structure TestGenResponse where
  status : Nat
  errorField : Option String
  preds : Option (List JsValue)

/-- POST /test/generate-predictions: same guard, generation only, no
chain interaction. -/
def postTestGeneratePredictions (body : List (String × JsValue)) (e : GenEnv) :
    TestGenResponse × List Effect :=
  let topic := objGet body "topic"
  if optTruthy topic then
    match generatePredictions e with
    | (effs, Except.error m) => (⟨500, some m, none⟩, effs)
    | (effs, Except.ok preds) => (⟨200, none, some preds⟩, effs)
  else
    (⟨400, some "Topic is required", none⟩, [])

/-! ## Finalization flow (POST /finalize-prediction/:id, lines 191-218)

  const prediction = await contract.getPredictionDetails(predictionId);
  const [description] = prediction;
  const currentData = await getPerplexityData(description);
  const outcome = await determineOutcome(description, currentData);
  const tx = await contract.finalizePrediction(predictionId, outcome);
  await tx.wait();
  res.json({ ..., outcome: outcome, transactionHash: tx.hash });

Note: the finalize submission is a plain `contract.finalizePrediction`
call with no overrides object — no `nonce` option is attached and the
module-level `currentNonce` is neither read nor written. -/

/-- Environment of one finalization: the contract read, the retrieval
call, the adjudication model's response text, the submission, and the
confirmation wait. -/
structure FinalizeEnv where
  readRes : Except String String
  retrievalRes : Except String String
  adjResponse : String
  submitRes : Except String String
  waitErr : Option String

/-- The contract call issued by the finalize submission: the prediction
id, the verdict argument, and the nonce override attached to the call
(`none` = no overrides object, the library picks the nonce itself). -/
structure FinalizeCall where
  predictionId : String
  verdict : Int
  nonceOverride : Option Nat
deriving DecidableEq

/-- Response of POST /finalize-prediction/:id. -/
structure FinResponse where
  status : Nat
  errorField : Option String
  outcome : Option Int
  transactionHash : Option String

/-- POST /finalize-prediction/:id from nonce state `s`: returns the new
nonce state, the response, and the finalize call issued (if reached). -/
def finalizeEndpoint (e : FinalizeEnv) (pid : String) (s : Option Nat) :
    Option Nat × FinResponse × Option FinalizeCall :=
  match e.readRes with
  | Except.error m => (s, ⟨500, some m, none, none⟩, none)
  | Except.ok _description =>
    match e.retrievalRes with
    | Except.error m => (s, ⟨500, some (perplexityWrap m), none, none⟩, none)
    | Except.ok _ =>
      match determineOutcome e.adjResponse with
      | Except.error m => (s, ⟨500, some m, none, none⟩, none)
      | Except.ok v =>
        let call : FinalizeCall := ⟨pid, v, none⟩
        match e.submitRes with
        | Except.error m => (s, ⟨500, some m, none, none⟩, some call)
        | Except.ok txh =>
          match e.waitErr with
          | some m => (s, ⟨500, some m, none, none⟩, some call)
          | none =>
            (s, ⟨200, none, some v, some txh⟩, some call)

example :
    finalizeEndpoint ⟨Except.ok "X", Except.ok "data", "reasoning\n1",
        Except.ok "0xf", none⟩ "3" (some 5) =
      (some 5, ⟨200, none, some 1, some "0xf"⟩, some ⟨"3", 1, none⟩) := by rfl

/-! ## Interleaving model (§5 of the spec)

The runtime is single-threaded with suspension exactly at each `await`.
A createPredictionOnContract call decomposes into atomic segments
separated by its awaits:
  start:        test `currentNonce === null`; if null, initiate the
                getTransactionCount read and suspend; otherwise read
                the nonce, initiate the submission and suspend;
  fetchPending: (read resolved) assign currentNonce, read it, initiate
                the submission and suspend;
  sendPending:  (submission accepted) execute `currentNonce++` and
                suspend on tx.wait();
  waiting:      (confirmation arrived) return.
Two concurrent calls interleave these segments in schedule order. The
environment here is benign — both reads return the same count `c`
(no transaction lands in between) and every submission is accepted —
which is all the refuted and confirmed schedules below need. -/

inductive TaskPhase where
  | start : TaskPhase
  | fetchPending : TaskPhase
  | sendPending : TaskPhase
  | waiting : TaskPhase
  | done : TaskPhase
deriving DecidableEq

/-- One in-flight createPredictionOnContract call: its phase and the
nonce it attached to its submission, once initiated. -/
structure Task where
  phase : TaskPhase
  sentNonce : Option Nat
deriving DecidableEq

/-- A fresh call. -/
def initTask : Task := ⟨TaskPhase.start, none⟩

/-- JavaScript `currentNonce++` (null coerces to 0, never exercised in
the schedules below). -/
def jsIncr (s : Option Nat) : Option Nat :=
  some (s.getD 0 + 1)

/-- Run one atomic segment of a task against the shared nonce state. -/
def taskStep (c : Nat) (s : Option Nat) (t : Task) : Option Nat × Task :=
  match t.phase with
  | TaskPhase.start =>
    match s with
    | none => (s, { t with phase := TaskPhase.fetchPending })
    | some n => (s, { phase := TaskPhase.sendPending, sentNonce := some n })
  | TaskPhase.fetchPending =>
    (some c, { phase := TaskPhase.sendPending, sentNonce := some c })
  | TaskPhase.sendPending => (jsIncr s, { t with phase := TaskPhase.waiting })
  | TaskPhase.waiting => (s, { t with phase := TaskPhase.done })
  | TaskPhase.done => (s, t)

/-- Run a schedule over two tasks: `false` steps the first task, `true`
the second. -/
def runSched (c : Nat) : List Bool → Option Nat → Task × Task → Option Nat × Task × Task
  | [], s, ts => (s, ts)
  | b :: rest, s, (t1, t2) =>
    if b then
      let r := taskStep c s t2
      runSched c rest r.1 (t1, r.2)
    else
      let r := taskStep c s t1
      runSched c rest r.1 (r.2, t2)

example :
    runSched 7 [false, true, false, true] none (initTask, initTask) =
      (some 7, ⟨TaskPhase.sendPending, some 7⟩, ⟨TaskPhase.sendPending, some 7⟩) := by
  decide

example :
    runSched 0 [false, false, true, true, true] (some 5) (initTask, initTask) =
      (some 7, ⟨TaskPhase.waiting, some 5⟩, ⟨TaskPhase.done, some 6⟩) := by
  decide

/-! ## Predicates on call environments -/

/-- Does a confirmation-wait outcome fall in the stale-nonce class the
catch block tests for? -/
def waitStale : Option String → Bool
  | none => false
  | some m => strIncludes m stalePat

/-- The call's submission is accepted for broadcast (a hash is
returned), and its wait outcome, if it throws, is not in the
stale-nonce class. -/
def acceptedNonStale (e : CallEnv) : Prop :=
  ∃ h w, e.send = SendOutcome.accepted h w ∧ waitStale w = false

/-- Does any error message this call environment can produce contain
the stale-nonce pattern? (Used to state "no submission is rejected with
a stale-sequence error" exactly as the claim does.) -/
def envMentionsStale (e : CallEnv) : Bool :=
  (match e.fetchRes with
   | Except.error m => strIncludes m stalePat
   | Except.ok _ => false) ||
  (match sendErr e.send with
   | some m => strIncludes m stalePat
   | none => false)

/-- The nonce sequence `some k, some (k+1), ...` of length `n`. -/
def expectedNonces (k : Nat) : Nat → List (Option Nat)
  | 0 => []
  | n + 1 => some k :: expectedNonces (k + 1) n

/-! ## Helper lemmas -/

theorem expectedNonces_eq_range (n : Nat) :
    ∀ k, expectedNonces k n = (List.range n).map (fun i => some (k + i)) := by
  induction n with
  | zero => intro k; rfl
  | succ m ih =>
    intro k
    rw [List.range_succ_eq_map]
    simp only [expectedNonces, List.map_cons, Nat.add_zero, List.map_map, ih (k + 1)]
    refine List.cons_eq_cons.2 ⟨rfl, ?_⟩
    refine List.map_congr_left (fun a _ => ?_)
    simp [Function.comp]
    omega

theorem runSeq_accepted_used (envs : List CallEnv) :
    ∀ k, (∀ e ∈ envs, acceptedNonStale e) →
      (runSeq envs (some k)).1.map Prod.fst = expectedNonces k envs.length := by
  induction envs with
  | nil => intro k _; rfl
  | cons e rest ih =>
    intro k hall
    obtain ⟨h, w, hsend, hw⟩ := hall e (List.mem_cons_self e rest)
    have hrest : ∀ x ∈ rest, acceptedNonStale x :=
      fun x hx => hall x (List.mem_cons_of_mem e hx)
    cases w with
    | none =>
      simp [runSeq, submitStep, hsend, sendPhase, expectedNonces, ih (k + 1) hrest]
    | some m =>
      have hm : strIncludes m stalePat = false := hw
      simp [runSeq, submitStep, hsend, sendPhase, catchUpdate, hm, expectedNonces,
        ih (k + 1) hrest]

theorem creationLoop_map_fst (envOf : Nat → CallEnv) (ps : List JsValue) :
    ∀ i s, ((creationLoop envOf ps i s).1).map Prod.fst = ps := by
  induction ps with
  | nil => intro i s; rfl
  | cons p rest ih => intro i s; simp [creationLoop, ih]

theorem objGet_append_policy (l : List (String × JsValue)) (k : String) (v : JsValue)
    (h : objGet policyFields k = some v) : objGet (l ++ policyFields) k = some v := by
  induction l with
  | nil => simpa using h
  | cons kv rest ih => simp [objGet, ih]

theorem normalizePrediction_policy (p : JsValue) :
    objGetV (normalizePrediction p) "minVotes" = some (JsValue.numV 1) ∧
    objGetV (normalizePrediction p) "maxVotes" = some (JsValue.numV 1000) ∧
    objGetV (normalizePrediction p) "predictionType" = some (JsValue.numV 0) ∧
    objGetV (normalizePrediction p) "optionsCount" = some (JsValue.numV 2) :=
  ⟨objGet_append_policy _ _ _ rfl, objGet_append_policy _ _ _ rfl,
   objGet_append_policy _ _ _ rfl, objGet_append_policy _ _ _ rfl⟩

/-! ## Claims -/

/-- C1 (counterexample): the claim conditions only on the absence of
stale-sequence rejections, but a submission rejected for any *other*
reason (here `"execution reverted"`) does not increment the in-memory
nonce, so the next submission attaches the same nonce again: the run
below attaches `[7, 7]`, not `[base, base+1]`. -/
theorem c1_claim_refuted :
    ¬ (∀ (e0 : CallEnv) (rest : List CallEnv) (base : Nat),
        e0.fetchRes = Except.ok base →
        (∀ e ∈ e0 :: rest, envMentionsStale e = false) →
        (runSeq (e0 :: rest) none).1.map Prod.fst =
          (List.range (e0 :: rest).length).map (fun i => some (base + i))) := by
  intro h
  have hc := h ⟨Except.ok 7, SendOutcome.rejected "execution reverted"⟩
      [⟨Except.ok 99, SendOutcome.accepted "0xb" none⟩] 7 rfl (by decide)
  exact absurd hc (by decide)

/-- C1 (amended): for N sequential submissions from an uninitialized
nonce in which every submission is accepted for broadcast (a hash is
returned, whatever the later confirmation does) and no error is in the
stale-sequence class, the nonces attached are `base, base+1, ...,
base+N-1`, where `base` is the chain-reported transaction count fetched
at first use. -/
theorem c1_nonce_monotonic (e0 : CallEnv) (rest : List CallEnv) (base : Nat)
    (hfetch : e0.fetchRes = Except.ok base)
    (hacc : ∀ e ∈ e0 :: rest, acceptedNonStale e) :
    (runSeq (e0 :: rest) none).1.map Prod.fst =
      (List.range (e0 :: rest).length).map (fun i => some (base + i)) := by
  rw [← expectedNonces_eq_range]
  obtain ⟨h, w, hsend, hw⟩ := hacc e0 (List.mem_cons_self e0 rest)
  have hrest : ∀ x ∈ rest, acceptedNonStale x :=
    fun x hx => hacc x (List.mem_cons_of_mem e0 hx)
  cases w with
  | none =>
    simp [runSeq, submitStep, hfetch, hsend, sendPhase, expectedNonces,
      runSeq_accepted_used rest (base + 1) hrest]
  | some m =>
    have hm : strIncludes m stalePat = false := hw
    simp [runSeq, submitStep, hfetch, hsend, sendPhase, catchUpdate, hm, expectedNonces,
      runSeq_accepted_used rest (base + 1) hrest]

/-- C1 (witness): a concrete three-submission run, all accepted, from
the chain count 7, attaches nonces 7, 8, 9. -/
theorem c1_witness :
    (runSeq [⟨Except.ok 7, SendOutcome.accepted "0xa" none⟩,
             ⟨Except.ok 50, SendOutcome.accepted "0xb" (some "tx reverted in block")⟩,
             ⟨Except.ok 60, SendOutcome.accepted "0xc" none⟩] none).1.map Prod.fst =
      (List.range 3).map (fun i => some (7 + i)) :=
  c1_nonce_monotonic ⟨Except.ok 7, SendOutcome.accepted "0xa" none⟩
    [⟨Except.ok 50, SendOutcome.accepted "0xb" (some "tx reverted in block")⟩,
     ⟨Except.ok 60, SendOutcome.accepted "0xc" none⟩] 7 rfl
    (by
      intro e he
      simp only [List.mem_cons, List.not_mem_nil, or_false] at he
      rcases he with rfl | rfl | rfl
      · exact ⟨"0xa", none, rfl, rfl⟩
      · exact ⟨"0xb", some "tx reverted in block", rfl, by decide⟩
      · exact ⟨"0xc", none, rfl, rfl⟩)

/-- C2 (counterexample): the claim says every response whose final line
is not exactly "0" or "1" fails, but JavaScript parseInt ignores
trailing garbage: on the response whose final line is
"0 (the prediction is false)" the adjudicator returns 0. -/
theorem c2_claim_refuted :
    ¬ (∀ content : String,
        lastLine (jsTrim content) ≠ "0" → lastLine (jsTrim content) ≠ "1" →
        ∃ m, determineOutcome content = Except.error m) := by
  intro h
  obtain ⟨m, hm⟩ :=
    h "The evidence is insufficient.\n0 (the prediction is false)" (by decide) (by decide)
  rw [show determineOutcome "The evidence is insufficient.\n0 (the prediction is false)" =
      Except.ok 0 from rfl] at hm
  exact Except.noConfusion hm

/-- C2 (amended): the adjudicator takes the last line of the trimmed
response and parses it with JavaScript parseInt semantics (leading
whitespace, a sign, a hex prefix and trailing garbage are accepted); it
returns `v` exactly when that parse yields `v` and `v` is 0 or 1, and
fails with the AdjudicationError message otherwise — in particular it
never returns a value outside {0, 1}. -/
theorem c2_adjudicate_characterized (content : String) (v : Int) :
    determineOutcome content = Except.ok v ↔
      (jsParseInt (lastLine (jsTrim content)) = some v ∧ (v = 0 ∨ v = 1)) := by
  unfold determineOutcome
  dsimp only
  cases hp : jsParseInt (lastLine (jsTrim content)) with
  | none =>
    constructor
    · intro hx; exact Except.noConfusion hx
    · rintro ⟨hnv, -⟩; exact Option.noConfusion hnv
  | some n =>
    constructor
    · intro hx
      dsimp only at hx
      by_cases hcond : n ≠ 0 ∧ n ≠ 1
      · rw [if_pos hcond] at hx
        exact Except.noConfusion hx
      · rw [if_neg hcond] at hx
        have hnv : n = v := Except.ok.inj hx
        subst hnv
        rw [not_and_or, not_not, not_not] at hcond
        exact ⟨rfl, hcond⟩
    · rintro ⟨hnv, hv⟩
      have hnv' : n = v := Option.some.inj hnv
      subst hnv'
      dsimp only
      have hnc : ¬(n ≠ 0 ∧ n ≠ 1) := by
        rintro ⟨h1, h2⟩
        rcases hv with rfl | rfl
        · exact h1 rfl
        · exact h2 rfl
      rw [if_neg hnc]

/-- C3 (counterexample): the claim says generate returns a non-empty
sequence or fails, but when the model's output parses to the empty JSON
array the code maps over it and returns the empty list, with no error. -/
theorem c3_claim_refuted :
    ¬ (∀ e : GenEnv,
        (∃ m, (generatePredictions e).2 = Except.error m) ∨
        (∃ l, (generatePredictions e).2 = Except.ok l ∧ l ≠ [] ∧
          ∀ p ∈ l, objGetV p "minVotes" = some (JsValue.numV 1) ∧
            objGetV p "maxVotes" = some (JsValue.numV 1000) ∧
            objGetV p "predictionType" = some (JsValue.numV 0) ∧
            objGetV p "optionsCount" = some (JsValue.numV 2))) := by
  intro h
  have hempty :
      (generatePredictions ⟨none, none, Except.ok (JsValue.arrV [])⟩).2 =
        Except.ok [] := rfl
  rcases h ⟨none, none, Except.ok (JsValue.arrV [])⟩ with ⟨m, hm⟩ | ⟨l, hl, hne, -⟩
  · rw [hempty] at hm
    exact Except.noConfusion hm
  · rw [hempty] at hl
    exact hne (Except.ok.inj hl).symm

/-- C3 (amended): generate either fails with a GenerationError or
returns a (possibly empty) sequence in which every item carries
minVotes=1, maxVotes=1000, predictionType=0 and optionsCount=2; the
four fields are appended after the spread of the model-supplied object,
so they override any model-supplied values — the result is never a mix
of policy-correct and policy-incorrect items. -/
theorem c3_policy_fields (e : GenEnv) :
    (∃ m, (generatePredictions e).2 = Except.error m) ∨
    (∃ l, (generatePredictions e).2 = Except.ok l ∧
      ∀ p ∈ l, objGetV p "minVotes" = some (JsValue.numV 1) ∧
        objGetV p "maxVotes" = some (JsValue.numV 1000) ∧
        objGetV p "predictionType" = some (JsValue.numV 0) ∧
        objGetV p "optionsCount" = some (JsValue.numV 2)) := by
  obtain ⟨r, c, parsed⟩ := e
  cases r with
  | some m => exact Or.inl ⟨_, rfl⟩
  | none =>
    cases c with
    | some m => exact Or.inl ⟨_, rfl⟩
    | none =>
      cases parsed with
      | error m => exact Or.inl ⟨_, rfl⟩
      | ok v =>
        cases v with
        | arrV xs =>
          refine Or.inr ⟨_, rfl, ?_⟩
          intro p hp
          obtain ⟨x, -, rfl⟩ := List.mem_map.1 hp
          exact normalizePrediction_policy x
        | nullV => exact Or.inl ⟨_, rfl⟩
        | boolV b => exact Or.inl ⟨_, rfl⟩
        | numV n => exact Or.inl ⟨_, rfl⟩
        | strV s => exact Or.inl ⟨_, rfl⟩
        | objV fs => exact Or.inl ⟨_, rfl⟩

/-- C4: whenever a createPredictionOnContract call fails with
underlying message `msg`, the call throws the wrapped message; if `msg`
contains "nonce too low" the in-memory nonce is reset to uninitialized
(and any later call started from the uninitialized state attaches the
freshly fetched chain transaction count, not a cached value); for any
other message an initialized nonce is never reset. -/
theorem c4_stale_reset_error_propagation (env : CallEnv) (s : Option Nat) (msg : String)
    (herr : underlyingErr env s = some msg) :
    (submitStep env s).result = Except.error (seqWrap msg) ∧
    (strIncludes msg stalePat = true → (submitStep env s).state = none) ∧
    (strIncludes msg stalePat = false →
      ∀ n, s = some n → (submitStep env s).state ≠ none) ∧
    (∀ (env2 : CallEnv) (c : Nat), env2.fetchRes = Except.ok c →
      (submitStep env2 none).used = some c) := by
  refine ⟨?_, ?_, ?_, ?_⟩
  · obtain ⟨f, snd⟩ := env
    cases s with
    | some n =>
      cases snd with
      | accepted h w =>
        cases w with
        | none => exact Option.noConfusion herr
        | some m =>
          rw [Option.some.inj herr]
          rfl
      | rejected m =>
        rw [Option.some.inj herr]
        rfl
    | none =>
      cases f with
      | error m =>
        rw [Option.some.inj herr]
        rfl
      | ok c =>
        cases snd with
        | accepted h w =>
          cases w with
          | none => exact Option.noConfusion herr
          | some m =>
            rw [Option.some.inj herr]
            rfl
        | rejected m =>
          rw [Option.some.inj herr]
          rfl
  · intro hstale
    obtain ⟨f, snd⟩ := env
    cases s with
    | some n =>
      cases snd with
      | accepted h w =>
        cases w with
        | none => exact Option.noConfusion herr
        | some m =>
          have hm := Option.some.inj herr
          subst hm
          simp [submitStep, sendPhase, catchUpdate, hstale]
      | rejected m =>
        have hm := Option.some.inj herr
        subst hm
        simp [submitStep, sendPhase, catchUpdate, hstale]
    | none =>
      cases f with
      | error m =>
        have hm := Option.some.inj herr
        subst hm
        simp [submitStep, catchUpdate, hstale]
      | ok c =>
        cases snd with
        | accepted h w =>
          cases w with
          | none => exact Option.noConfusion herr
          | some m =>
            have hm := Option.some.inj herr
            subst hm
            simp [submitStep, sendPhase, catchUpdate, hstale]
        | rejected m =>
          have hm := Option.some.inj herr
          subst hm
          simp [submitStep, sendPhase, catchUpdate, hstale]
  · intro hother n hs
    subst hs
    obtain ⟨f, snd⟩ := env
    cases snd with
    | accepted h w =>
      cases w with
      | none => simp [submitStep, sendPhase]
      | some m =>
        have hm := Option.some.inj herr
        subst hm
        simp [submitStep, sendPhase, catchUpdate, hother]
    | rejected m =>
      have hm := Option.some.inj herr
      subst hm
      simp [submitStep, sendPhase, catchUpdate, hother]
  · intro env2 c hf
    obtain ⟨f2, snd2⟩ := env2
    cases hf
    cases snd2 with
    | accepted h w => cases w <;> rfl
    | rejected m => rfl

/-- C4 (witness): a concrete stale rejection resets the nonce and
throws the wrapped message; a concrete re-fetch attaches the chain
count. -/
theorem c4_witness :
    (submitStep ⟨Except.ok 5, SendOutcome.rejected "nonce too low: next nonce 9"⟩
        (some 5)).result =
      Except.error (seqWrap "nonce too low: next nonce 9") ∧
    (submitStep ⟨Except.ok 5, SendOutcome.rejected "nonce too low: next nonce 9"⟩
        (some 5)).state = none ∧
    (submitStep ⟨Except.ok 9, SendOutcome.accepted "0xa" none⟩ none).used = some 9 := by
  have h := c4_stale_reset_error_propagation
    ⟨Except.ok 5, SendOutcome.rejected "nonce too low: next nonce 9"⟩
    (some 5) "nonce too low: next nonce 9" rfl
  exact ⟨h.1, h.2.1 (by decide), h.2.2.2 ⟨Except.ok 9, SendOutcome.accepted "0xa" none⟩ 9 rfl⟩

/-- C5: when the creation request passes the topic guard and the
generation step succeeds with K predictions, the response is a 200
whose items are exactly the K predictions in generation order, each
annotated with its submission's transaction hash or its error message;
a failing submission does not remove later items. -/
theorem c5_partial_success (body : List (String × JsValue)) (e : GenEnv)
    (envOf : Nat → CallEnv) (s : Option Nat) (effs : List Effect) (preds : List JsValue)
    (htopic : optTruthy (objGet body "topic") = true)
    (hgen : generatePredictions e = (effs, Except.ok preds)) :
    ∃ items s',
      postGeneratePredictions body e envOf s =
        (⟨200, none, some items⟩, effs ++ items.map (fun _ => Effect.chain), s') ∧
      items.map Prod.fst = preds ∧
      items.length = preds.length ∧
      ∀ it ∈ items, (∃ h, it.2 = Except.ok h) ∨ (∃ m, it.2 = Except.error m) := by
  refine ⟨(creationLoop envOf preds 0 s).1, (creationLoop envOf preds 0 s).2, ?_, ?_, ?_, ?_⟩
  · simp [postGeneratePredictions, htopic, hgen]
  · exact creationLoop_map_fst envOf preds 0 s
  · have := creationLoop_map_fst envOf preds 0 s
    calc (creationLoop envOf preds 0 s).1.length
        = ((creationLoop envOf preds 0 s).1.map Prod.fst).length := (List.length_map _ _).symm
      _ = preds.length := by rw [this]
  · intro it _
    cases h : it.2 with
    | ok a => exact Or.inl ⟨a, rfl⟩
    | error m => exact Or.inr ⟨m, rfl⟩

/-- C5 (witness): three generated predictions where the middle
submission is rejected still yield three items in order, the middle one
carrying the error and the others their hashes. -/
theorem c5_witness :
    ∃ items s',
      postGeneratePredictions [("topic", JsValue.strV "ai")]
          ⟨none, none,
            Except.ok (JsValue.arrV
              [JsValue.objV [("description", JsValue.strV "a")],
               JsValue.objV [("description", JsValue.strV "b")],
               JsValue.objV [("description", JsValue.strV "c")]])⟩
          (fun i => if i = 1 then ⟨Except.ok 0, SendOutcome.rejected "execution reverted"⟩
                    else ⟨Except.ok 10, SendOutcome.accepted "0xh" none⟩)
          (some 3) =
        (⟨200, none, some items⟩,
          [Effect.retrieval, Effect.generation] ++ items.map (fun _ => Effect.chain), s') ∧
      items.map Prod.fst =
        [normalizePrediction (JsValue.objV [("description", JsValue.strV "a")]),
         normalizePrediction (JsValue.objV [("description", JsValue.strV "b")]),
         normalizePrediction (JsValue.objV [("description", JsValue.strV "c")])] ∧
      items.length =
        ([normalizePrediction (JsValue.objV [("description", JsValue.strV "a")]),
          normalizePrediction (JsValue.objV [("description", JsValue.strV "b")]),
          normalizePrediction (JsValue.objV [("description", JsValue.strV "c")])] :
            List JsValue).length ∧
      ∀ it ∈ items, (∃ h, it.2 = Except.ok h) ∨ (∃ m, it.2 = Except.error m) :=
  c5_partial_success _ _ _ _ _ _ rfl rfl

/-- C6: the fetch-and-set is NOT a critical section. Under the
interleaving in which both in-flight submissions run their null-check
segment before either fetch resolves (schedule first-second-first-
second, chain count 7), both tasks enter the fetch (after two steps
both are fetch-pending, i.e. both performed the chain read), and both
then attach the same nonce 7 to their submissions — the second task
never observes the incremented value 8 the claim requires. The code has
no mutex or single-flight guard around
`if (currentNonce === null) currentNonce = await wallet.getTransactionCount();`,
whose await suspends between the test and the assignment. -/
theorem c6_initialization_race :
    (runSched 7 [false, true] none (initTask, initTask)).2 =
      (⟨TaskPhase.fetchPending, none⟩, ⟨TaskPhase.fetchPending, none⟩) ∧
    (runSched 7 [false, true, false, true] none (initTask, initTask)).2.1.sentNonce =
      some 7 ∧
    (runSched 7 [false, true, false, true] none (initTask, initTask)).2.2.sentNonce =
      some 7 ∧
    ¬ (runSched 7 [false, true, false, true] none (initTask, initTask)).2.2.sentNonce =
      some 8 := by
  decide

/-- C7: on acceptance (hash returned) the in-memory nonce is
incremented immediately, whatever the confirmation wait later does (a
non-stale wait failure does not undo it), and the attached nonce is the
pre-increment value; moreover a second submission scheduled while the
first is still awaiting confirmation runs to completion with the
incremented nonce — the schedule below finishes task two (nonce 6)
while task one is still in its waiting phase. -/
theorem c7_increment_at_acceptance :
    (∀ (h : String) (w : Option String) (n : Nat), waitStale w = false →
      (sendPhase (SendOutcome.accepted h w) n).state = some (n + 1) ∧
      (sendPhase (SendOutcome.accepted h w) n).used = some n) ∧
    (runSched 0 [false, false, true, true, true] (some 5) (initTask, initTask)).2.1.phase =
      TaskPhase.waiting ∧
    (runSched 0 [false, false, true, true, true] (some 5) (initTask, initTask)).2.2 =
      ⟨TaskPhase.done, some 6⟩ := by
  refine ⟨?_, by decide, by decide⟩
  intro h w n hw
  cases w with
  | none => exact ⟨rfl, rfl⟩
  | some m =>
    have hm : strIncludes m stalePat = false := hw
    constructor
    · simp [sendPhase, catchUpdate, hm]
    · rfl

/-- C7 (witness): at a concrete acceptance whose confirmation wait then
throws a non-stale error, the nonce has still been incremented. -/
theorem c7_witness :
    (sendPhase (SendOutcome.accepted "0xa" (some "transaction failed")) 3).state = some 4 ∧
    (sendPhase (SendOutcome.accepted "0xa" (some "transaction failed")) 3).used = some 3 :=
  c7_increment_at_acceptance.1 "0xa" (some "transaction failed") 3 (by decide)

/-- C8 (counterexample): the claim says the finalize submission goes
through the Transaction Sequencer's nonce-managed submit path, which
would attach an explicitly managed nonce to the call; but
`contract.finalizePrediction(predictionId, outcome)` is invoked with no
overrides object, so no nonce is attached (and `currentNonce` is
neither read nor incremented). -/
theorem c8_claim_refuted :
    ¬ (∀ (e : FinalizeEnv) (pid : String) (s : Option Nat) (v : Int),
        determineOutcome e.adjResponse = Except.ok v →
        ∃ n, (finalizeEndpoint e pid s).2.2 = some ⟨pid, v, some n⟩) := by
  intro h
  obtain ⟨n, hn⟩ :=
    h ⟨Except.ok "X", Except.ok "data", "reasoning\n1", Except.ok "0xf", none⟩
      "3" (some 5) 1 rfl
  rw [show (finalizeEndpoint
        ⟨Except.ok "X", Except.ok "data", "reasoning\n1", Except.ok "0xf", none⟩
        "3" (some 5)).2.2 = some ⟨"3", 1, none⟩ from rfl] at hn
  simp at hn

/-- C8 (amended): for every finalization whose stages all succeed and
whose adjudicator returns verdict v, the finalize call is issued
directly on the contract with verdict argument exactly v and no nonce
override (the in-memory nonce is neither consulted nor changed), and
the response returns that verdict and the transaction hash. -/
theorem c8_finalize_roundtrip (e : FinalizeEnv) (pid : String) (s : Option Nat)
    (v : Int) (d g txh : String)
    (hread : e.readRes = Except.ok d) (hret : e.retrievalRes = Except.ok g)
    (hadj : determineOutcome e.adjResponse = Except.ok v)
    (hsub : e.submitRes = Except.ok txh) (hwait : e.waitErr = none) :
    finalizeEndpoint e pid s =
      (s, ⟨200, none, some v, some txh⟩, some ⟨pid, v, none⟩) := by
  obtain ⟨r, ret, adj, sub, w⟩ := e
  dsimp only at hread hret hadj hsub hwait
  subst hread hret hsub hwait
  simp [finalizeEndpoint, hadj]

/-- C8 (witness): a concrete finalization where the adjudicator answers
1 issues the finalize call with verdict exactly 1 and answers with the
verdict and hash. -/
theorem c8_witness :
    finalizeEndpoint ⟨Except.ok "X", Except.ok "data", "reasoning\n1", Except.ok "0xf", none⟩
        "3" (some 5) =
      (some 5, ⟨200, none, some 1, some "0xf"⟩, some ⟨"3", 1, none⟩) :=
  c8_finalize_roundtrip _ "3" (some 5) 1 "X" "data" "0xf" rfl rfl rfl rfl rfl

/-- C9: a POST /generate-predictions request whose body has no topic
property returns 400 with an error field, performs no external call,
and leaves the nonce untouched. -/
theorem c9_missing_topic (body : List (String × JsValue)) (e : GenEnv)
    (envOf : Nat → CallEnv) (s : Option Nat)
    (h : objGet body "topic" = none) :
    postGeneratePredictions body e envOf s =
      (⟨400, some "Topic is required", none⟩, [], s) := by
  simp [postGeneratePredictions, h, optTruthy]

/-- C9 (witness): the empty body. -/
theorem c9_witness :
    postGeneratePredictions [] ⟨none, none, Except.ok JsValue.nullV⟩
        (fun _ => ⟨Except.ok 0, SendOutcome.rejected "x"⟩) none =
      (⟨400, some "Topic is required", none⟩, [], none) :=
  c9_missing_topic [] ⟨none, none, Except.ok JsValue.nullV⟩
    (fun _ => ⟨Except.ok 0, SendOutcome.rejected "x"⟩) none rfl

/-- C10: a topic that is present but falsy (empty string, 0, false,
null) also takes the `if (!topic)` guard: both /generate-predictions
and /test/generate-predictions return 400 with an error field and
perform no retrieval, generation or chain call. -/
theorem c10_falsy_topic (body : List (String × JsValue)) (t : JsValue)
    (e : GenEnv) (envOf : Nat → CallEnv) (s : Option Nat)
    (h : objGet body "topic" = some t) (ht : jsTruthy t = false) :
    postGeneratePredictions body e envOf s =
      (⟨400, some "Topic is required", none⟩, [], s) ∧
    postTestGeneratePredictions body e =
      (⟨400, some "Topic is required", none⟩, []) := by
  constructor
  · simp [postGeneratePredictions, h, optTruthy, ht]
  · simp [postTestGeneratePredictions, h, optTruthy, ht]

/-- C10 (witness): the empty-string topic. -/
theorem c10_witness :
    postGeneratePredictions [("topic", JsValue.strV "")]
        ⟨none, none, Except.ok JsValue.nullV⟩
        (fun _ => ⟨Except.ok 0, SendOutcome.rejected "x"⟩) (some 2) =
      (⟨400, some "Topic is required", none⟩, [], some 2) ∧
    postTestGeneratePredictions [("topic", JsValue.strV "")]
        ⟨none, none, Except.ok JsValue.nullV⟩ =
      (⟨400, some "Topic is required", none⟩, []) :=
  c10_falsy_topic [("topic", JsValue.strV "")] (JsValue.strV "")
    ⟨none, none, Except.ok JsValue.nullV⟩
    (fun _ => ⟨Except.ok 0, SendOutcome.rejected "x"⟩) (some 2) rfl rfl

end AiPredict
